import Mathlib

/-!
Verification of `clean-tmps.py` (a periodic temporary-file cleaner) via a
shallow embedding of its core: the per-entry classifier `process`
(lines 21-55), the timestamp cache `cache_timestamps` (lines 57-60), and the
per-root scan / deferred-drain / timestamp-restore loop (lines 112-171).

Filesystem paths are modelled as lists of components (`os.path.join d n` is
`d ++ [n]`, `os.path.dirname p` is `p.dropLast`).  Timestamps are integers;
only `≤`-comparisons against the fixed threshold matter.  OS calls are
modelled as oracles in an `Env` record; Python exceptions that the source
does not catch are threaded explicitly through an `exn` field, because an
uncaught `OSError`/`TypeError` aborts the whole program.
-/

namespace CleanTmps

abbrev Path := List String

/-- File types distinguished by the `stat.S_IS*` tests in `process`
(regular, directory, symlink, fifo, character device), plus the types the
script treats as unsupported (sockets, anything else). -/
inductive FType
  | reg | dir | lnk | fifo | chr | sock | other
deriving DecidableEq

/-- The fields of a `stat` result that `process` consults: the file type
from `st_mode`, and `st_mtime`, `st_ctime`, `st_atime`. -/
structure Stats where
  ftype : FType
  mtime : Int
  ctime : Int
  atime : Int
deriving DecidableEq

/-- Embedding of `class Action(enum.Enum)` from lines 14-18 of the source. -/
inductive Action
  | skip | unlink | defer_rmdir_check | defer_unsymlink_check
deriving DecidableEq

/-- Python exceptions that escape the source's `try` blocks: an `OSError`
that is not a `FileNotFoundError` (e.g. `ELOOP`), and the `TypeError` that
`os.stat(None)` would raise. -/
inductive PyExn
  | osError | typeError
deriving DecidableEq

/-- Outcome of `os.stat(path, follow_symlinks=True)` on a symlink, line 35:
the target's stats, a `FileNotFoundError` (errno `ENOENT`: broken link), or
some other `OSError` (e.g. errno `ELOOP`: link cycle or too many levels of
symbolic links, which Python raises as plain `OSError`, not
`FileNotFoundError`). -/
inductive ResolveResult
  | found (t : Stats)
  | fileNotFound
  | osError
deriving DecidableEq

/-- Lines 26-28: `any(is_(mode) for is_ in (S_ISREG, S_ISDIR, S_ISLNK,
S_ISFIFO, S_ISCHR))`. -/
def supported (t : FType) : Bool :=
  t == .reg || t == .dir || t == .lnk || t == .fifo || t == .chr

/-- Lines 46-55 of `process`: build `timestamps = [st_mtime]`, extend with
`[st_ctime, st_atime]` unless the entry is a directory, and return
`defer_rmdir_check` / `unlink` when all of them are `≤ THRESHOLD`, else
`skip`. -/
def timestampClassify (th : Int) (s : Stats) : Action :=
  let timestamps :=
    if s.ftype == .dir then [s.mtime] else [s.mtime, s.ctime, s.atime]
  if timestamps.all (fun t => decide (t ≤ th)) then
    if s.ftype == .dir then .defer_rmdir_check else .unlink
  else .skip

/-- The recursive call `process(None, target_stats)` at line 42.  The source
passes `path=None`, so if `target_stats` indicated a symlink the inner call
would reach `os.stat(None, follow_symlinks=True)` and raise a `TypeError`
(uncaught: the inner `except` clause only catches `FileNotFoundError`).
A following stat never actually reports a symlink, so in the source the
recursion always stops after one level; this definition is that one
unrolled level. -/
def processInner (th : Int) (t : Stats) : Except PyExn Action :=
  if ¬ supported t.ftype then .ok .skip
  else if t.ftype == .lnk then .error .typeError
  else .ok (timestampClassify th t)

/-- Embedding of `process(path, stats)`, lines 21-55.  `res` is the outcome of the
`os.stat(path, follow_symlinks=True)` call at line 35 (only consulted in the
symlink branch).  A `FileNotFoundError` is caught and yields
`Action.unlink`; any other `OSError` escapes (the `try` at line 34 catches
only `FileNotFoundError`), modelled as `Except.error`. -/
def process (th : Int) (s : Stats) (res : ResolveResult) : Except PyExn Action :=
  if ¬ supported s.ftype then .ok .skip
  else if s.ftype == .lnk then
    match res with
    | .fileNotFound => .ok .unlink
    | .osError => .error .osError
    | .found t =>
      match processInner th t with
      | .error e => .error e
      | .ok a =>
        .ok (if a == .defer_rmdir_check then .defer_unsymlink_check else a)
  else .ok (timestampClassify th s)

/-- Lookup in the `dir_times` dict, modelled as an insertion-ordered
association list (Python dicts preserve insertion order). -/
def lookupTs : List (Path × (Int × Int)) → Path → Option (Int × Int)
  | [], _ => none
  | (q, v) :: rest, p => if q = p then some v else lookupTs rest p

/-- Embedding of `cache_timestamps(timestamps, path)`, lines 57-60: if `path` is not a
key of the dict, `os.stat(path)` and store `(st_atime_ns, st_mtime_ns)`.
The function itself catches nothing: a stat failure propagates to the
caller, modelled as `Except.error`. -/
def cache_timestamps (statNs : Path → Except PyExn (Int × Int))
    (timestamps : List (Path × (Int × Int))) (path : Path) :
    Except PyExn (List (Path × (Int × Int))) :=
  match lookupTs timestamps path with
  | some _ => .ok timestamps
  | none =>
    match statNs path with
    | .error e => .error e
    | .ok v => .ok (timestamps ++ [(path, v)])

/-- Oracles for the OS calls made by the per-root loop.  `lstat` is
`os.stat(item_path, follow_symlinks=False)` (line 125); `resolve` is the
following stat done inside `process` (line 35); `statNs` is the `os.stat`
inside `cache_timestamps` (line 59), returning `(st_atime_ns, st_mtime_ns)`;
`unlinkOk` / `rmdirOk` / `utimeOk` tell whether `os.unlink` / `os.rmdir` /
`os.utime` succeed (`false` = they raise `OSError`); `existsAt` is
`os.path.exists` (line 155), which never raises. -/
structure Env where
  lstat : Path → Except PyExn Stats
  resolve : Path → ResolveResult
  statNs : Path → Except PyExn (Int × Int)
  unlinkOk : Path → Bool
  rmdirOk : Path → Bool
  existsAt : Path → Bool
  utimeOk : Path → Bool

/-- Observable events of a run: successful mutations (`unlink`, `rmdir`,
`utime`), verbose stdout lines (`out`), and `drainVisit p`, marking the
start of the loop iteration for `p` in `for path, action in
reversed(deferred_items)` (line 149). -/
inductive Effect
  | unlink (p : Path)
  | rmdir (p : Path)
  | utime (p : Path) (ns : Int × Int)
  | out (p : Path)
  | drainVisit (p : Path)
deriving DecidableEq

/-- Per-root mutable state: the `dir_times` dict, the `deferred_items`
list, the trace of events so far, and `exn`, the uncaught Python exception
if one has been raised (it aborts everything downstream). -/
structure RState where
  dirTimes : List (Path × (Int × Int))
  deferred : List (Path × Action)
  trace : List Effect
  exn : Option PyExn
deriving DecidableEq

/-- Fresh per-root state: `dir_times = {}`, `deferred_items = []`
(lines 113, 117). -/
def initState : RState := ⟨[], [], [], none⟩

/-- Body of the inner scan loop (lines 120-144) for a single entry
`item_name` inside `dir_path`.  A failing `lstat` is silently skipped; an
exception escaping `process` (e.g. `ELOOP`) is uncaught and recorded in
`exn`; for `unlink` classifications, `cache_timestamps` and `os.unlink`
share one `try` (a cache failure is caught but also forfeits the unlink,
while an unlink failure keeps the already-inserted cache entry); deferred
classifications are appended to `deferred_items`. -/
def scanItem (th : Int) (env : Env) (verbose : Bool) (excl : String → Bool)
    (dirPath : Path) (itemName : String) (st : RState) : RState :=
  if st.exn.isSome then st else
  if excl itemName then st else
  match env.lstat (dirPath ++ [itemName]) with
  | .error _ => st
  | .ok stats =>
    match process th stats (env.resolve (dirPath ++ [itemName])) with
    | .error e => { st with exn := some e }
    | .ok a =>
      if a == Action.unlink then
        match cache_timestamps env.statNs st.dirTimes dirPath with
        | .error _ => st
        | .ok dt =>
          if env.unlinkOk (dirPath ++ [itemName]) then
            { st with
              dirTimes := dt,
              trace := st.trace ++ [.unlink (dirPath ++ [itemName])] ++
                (if verbose then [.out (dirPath ++ [itemName])] else []) }
          else { st with dirTimes := dt }
      else if a == Action.defer_rmdir_check ||
          a == Action.defer_unsymlink_check then
        { st with deferred := st.deferred ++ [(dirPath ++ [itemName], a)] }
      else st

/-- One `os.walk` triple `(dir_path, dir_names, file_names)`; the scan
iterates `chain(file_names, dir_names)` (line 120). -/
def scanDir (th : Int) (env : Env) (verbose : Bool) (excl : String → Bool)
    (entry : Path × List String × List String) (st : RState) : RState :=
  (entry.2.2 ++ entry.2.1).foldl
    (fun s n => scanItem th env verbose excl entry.1 n s) st

/-- The whole top-down scan of one root (lines 119-144), parameterised by
the `os.walk` output. -/
def scanPhase (th : Int) (env : Env) (verbose : Bool) (excl : String → Bool)
    (walk : List (Path × List String × List String)) (st : RState) : RState :=
  walk.foldl (fun s e => scanDir th env verbose excl e s) st

/-- Body of the deferred-drain loop (lines 149-165) for one deferred item.
`cache_timestamps(dir_times, os.path.dirname(path))` at line 150 sits
OUTSIDE the `try`, so a stat failure there becomes an uncaught exception.
Then: `defer_rmdir_check` attempts `os.rmdir`; `defer_unsymlink_check`
checks `os.path.exists` and unlinks only a no-longer-resolving path; any
other action `continue`s.  When the `try` body completes without raising —
including the case where the path still exists and nothing was unlinked —
the `else` clause prints the path in verbose mode. -/
def drainItem (env : Env) (verbose : Bool) (st : RState) (pa : Path × Action) :
    RState :=
  if st.exn.isSome then st else
  match cache_timestamps env.statNs st.dirTimes pa.1.dropLast with
  | .error e =>
    { st with trace := st.trace ++ [.drainVisit pa.1], exn := some e }
  | .ok dt =>
    match pa.2 with
    | .defer_rmdir_check =>
      if env.rmdirOk pa.1 then
        { st with
          dirTimes := dt,
          trace := st.trace ++ [.drainVisit pa.1] ++ [.rmdir pa.1] ++
            (if verbose then [.out pa.1] else []) }
      else
        { st with
          dirTimes := dt,
          trace := st.trace ++ [.drainVisit pa.1] }
    | .defer_unsymlink_check =>
      if env.existsAt pa.1 then
        { st with
          dirTimes := dt,
          trace := st.trace ++ [.drainVisit pa.1] ++
            (if verbose then [.out pa.1] else []) }
      else if env.unlinkOk pa.1 then
        { st with
          dirTimes := dt,
          trace := st.trace ++ [.drainVisit pa.1] ++ [.unlink pa.1] ++
            (if verbose then [.out pa.1] else []) }
      else
        { st with
          dirTimes := dt,
          trace := st.trace ++ [.drainVisit pa.1] }
    | _ =>
      { st with
        dirTimes := dt,
        trace := st.trace ++ [.drainVisit pa.1] }

/-- Loop `for path, action in reversed(deferred_items)` — the caller passes
the reversed list. -/
def drainPhase (env : Env) (verbose : Bool) (ds : List (Path × Action))
    (st : RState) : RState :=
  ds.foldl (drainItem env verbose) st

/-- One step of the restore loop (lines 167-171): best-effort
`os.utime(path, ns=times)`, failures ignored. -/
def restoreItem (env : Env) (st : RState) (pt : Path × (Int × Int)) : RState :=
  if st.exn.isSome then st else
  if env.utimeOk pt.1 then
    { st with trace := st.trace ++ [.utime pt.1 pt.2] }
  else st

/-- The restore loop over `dir_times.items()` (insertion order). -/
def restorePhase (env : Env) (st : RState) : RState :=
  st.dirTimes.foldl (restoreItem env) st

/-- Processing of one configured root (lines 112-171): top-down scan,
reversed deferred drain, timestamp restore. -/
def runRoot (th : Int) (env : Env) (verbose : Bool) (excl : String → Bool)
    (walk : Path → List (Path × List String × List String)) (root : Path) :
    RState :=
  let s1 := scanPhase th env verbose excl (walk root) initState
  let s2 := drainPhase env verbose s1.deferred.reverse s1
  restorePhase env s2

/-- Loop `for tmp_dir in tmp_dirs` (line 112): each root gets fresh `dir_times`
and `deferred_items`; an uncaught exception in one root aborts the whole
program, so later roots are not processed. -/
def runAll (th : Int) (env : Env) (verbose : Bool) (excl : String → Bool)
    (walk : Path → List (Path × List String × List String))
    (tmpDirs : List Path) : List Effect × Option PyExn :=
  tmpDirs.foldl
    (fun acc root =>
      match acc.2 with
      | some _ => acc
      | none =>
        let st := runRoot th env verbose excl walk root
        (acc.1 ++ st.trace, st.exn))
    ([], none)

/-- The whole post-configuration program (lines 109-171): the script first
prints an empty line and the header `Removing old temporary files:`
unconditionally (lines 109-110), then runs the per-root loop.  The first
component is the stdout lines printed before the loop. -/
def programRun (th : Int) (env : Env) (verbose : Bool) (excl : String → Bool)
    (walk : Path → List (Path × List String × List String))
    (tmpDirs : List Path) :
    List String × (List Effect × Option PyExn) :=
  (["", "Removing old temporary files:"],
   runAll th env verbose excl walk tmpDirs)

/-- Paths of the filesystem mutations performed by `unlink`/`rmdir` events
in a trace (the mutations that disturb a parent directory's timestamps). -/
def mutOf : Effect → Option Path
  | .unlink p => some p
  | .rmdir p => some p
  | _ => none

def mutPaths (tr : List Effect) : List Path :=
  tr.filterMap mutOf

/-- The paths printed to stdout by a trace (the verbose per-deletion
lines, one path per line). -/
def outLines (tr : List Effect) : List Path :=
  tr.filterMap (fun e =>
    match e with
    | .out p => some p
    | _ => none)

/-- The deferred items visited by the drain loop, in visit order. -/
def visitOf : Effect → Option Path
  | .drainVisit p => some p
  | _ => none

def drainVisits (tr : List Effect) : List Path :=
  tr.filterMap visitOf

/-- Predicate: `a` occurs strictly before `b` in the list `l`. -/
def Before (l : List Path) (a b : Path) : Prop :=
  ∃ l1 l2 l3, l = l1 ++ a :: l2 ++ b :: l3

/-- Test whether an `Except` value is `ok` (used for Boolean hypotheses). -/
def isOkE {α : Type} : Except PyExn α → Bool
  | .ok _ => true
  | .error _ => false

/-- The snapshot invariant of claim C6: the parent of every mutated path
has an entry in `dir_times`, and `dir_times` has no duplicate keys
(exactly one entry per path). -/
def SnapInv (st : RState) : Prop :=
  (∀ p ∈ mutPaths st.trace,
    (lookupTs st.dirTimes p.dropLast).isSome = true) ∧
  (st.dirTimes.map Prod.fst).Nodup

/-- An exclusion predicate matching nothing (empty
`daily_clean_tmps_ignore`, ignoring the always-appended VFS pattern). -/
def exF : String → Bool := fun _ => false

/-- Walk output for a root `T` containing directory `A`, which contains
directory `b`, which contains directory `c`: the spec's discovery-order
example. -/
def walkA : Path → List (Path × List String × List String) :=
  fun _ =>
    [(["T"], ["A"], []),
     (["T", "A"], ["b"], []),
     (["T", "A", "b"], ["c"], [])]

/-- Environment in which every entry is an old directory and every OS call
succeeds. -/
def envA : Env where
  lstat := fun _ => .ok ⟨.dir, 0, 0, 0⟩
  resolve := fun _ => .fileNotFound
  statNs := fun _ => .ok (1, 2)
  unlinkOk := fun _ => true
  rmdirOk := fun _ => true
  existsAt := fun _ => false
  utimeOk := fun _ => true

/-- Environment in which every entry is an old regular file but the stat
inside `cache_timestamps` always fails. -/
def env7 : Env where
  lstat := fun _ => .ok ⟨.reg, 0, 0, 0⟩
  resolve := fun _ => .fileNotFound
  statNs := fun _ => .error .osError
  unlinkOk := fun _ => true
  rmdirOk := fun _ => true
  existsAt := fun _ => true
  utimeOk := fun _ => true

/-- Environment in which cache stats succeed and `os.path.exists` reports
every path as still existing (a deferred symlink whose target still
resolves). -/
def env8 : Env where
  lstat := fun _ => .ok ⟨.reg, 99, 99, 99⟩
  resolve := fun _ => .fileNotFound
  statNs := fun _ => .ok (3, 4)
  unlinkOk := fun _ => false
  rmdirOk := fun _ => false
  existsAt := fun _ => true
  utimeOk := fun _ => true

end CleanTmps

namespace CleanTmps

/-- Claim C2: for every entry whose non-following stat reports type regular
file, named pipe, or character device, `process` returns `Action.unlink`
iff mtime, ctime and atime are all `≤` the threshold, and `Action.skip`
otherwise (the symlink-resolution argument is irrelevant for these types). -/
theorem classify_file_unlink_iff (th : Int) (s : Stats) (res : ResolveResult)
    (hty : s.ftype = .reg ∨ s.ftype = .fifo ∨ s.ftype = .chr) :
    (process th s res = .ok .unlink ↔
      (s.mtime ≤ th ∧ s.ctime ≤ th ∧ s.atime ≤ th)) ∧
    (process th s res = .ok .skip ↔
      ¬ (s.mtime ≤ th ∧ s.ctime ≤ th ∧ s.atime ≤ th)) := by
  obtain ⟨t, m, c, a⟩ := s
  simp only at hty
  by_cases h1 : m ≤ th <;> by_cases h2 : c ≤ th <;> by_cases h3 : a ≤ th <;>
    rcases hty with h | h | h <;> subst h <;>
    simp [process, supported, timestampClassify, h1, h2, h3]

/-- Witness for C2 at a concrete input: a regular file with all three
timestamps at the threshold is classified `unlink`. -/
theorem classify_file_unlink_iff_witness :
    (Stats.ftype ⟨.reg, 5, 5, 5⟩ = .reg ∨ Stats.ftype ⟨.reg, 5, 5, 5⟩ = .fifo ∨
      Stats.ftype ⟨.reg, 5, 5, 5⟩ = .chr) ∧
    (process 5 ⟨.reg, 5, 5, 5⟩ .fileNotFound = .ok .unlink ↔
      ((5 : Int) ≤ 5 ∧ (5 : Int) ≤ 5 ∧ (5 : Int) ≤ 5)) :=
  ⟨Or.inl rfl,
   (classify_file_unlink_iff 5 ⟨.reg, 5, 5, 5⟩ .fileNotFound (Or.inl rfl)).1⟩

/-- Claim C3: for every entry whose non-following stat reports type
directory, `process` returns `Action.defer_rmdir_check` iff mtime `≤`
threshold and `Action.skip` otherwise, and the result does not depend on
the directory's ctime or atime. -/
theorem classify_dir_defer_iff (th : Int) (s : Stats) (res : ResolveResult)
    (hty : s.ftype = .dir) :
    (process th s res = .ok .defer_rmdir_check ↔ s.mtime ≤ th) ∧
    (process th s res = .ok .skip ↔ ¬ s.mtime ≤ th) ∧
    (∀ c a : Int,
      process th { s with ctime := c, atime := a } res = process th s res) := by
  obtain ⟨t, m, c, a⟩ := s
  simp only at hty
  subst hty
  by_cases h1 : m ≤ th <;>
    simp [process, supported, timestampClassify, h1]

/-- Witness for C3 at a concrete input: an old directory (mtime at the
threshold, fresh ctime/atime) is classified `defer_rmdir_check`. -/
theorem classify_dir_defer_iff_witness :
    (Stats.ftype ⟨.dir, 5, 99, 99⟩ = .dir) ∧
    (process 5 ⟨.dir, 5, 99, 99⟩ .fileNotFound = .ok .defer_rmdir_check ↔
      (5 : Int) ≤ 5) :=
  ⟨rfl, (classify_dir_defer_iff 5 ⟨.dir, 5, 99, 99⟩ .fileNotFound rfl).1⟩

/-- Claim C4 evaluated on the code: when the following stat of a symlink
fails with `FileNotFoundError` (broken link) the classification is
`unlink`, but when it fails with any other `OSError` — which is what a link
cycle or an over-long chain raises (errno `ELOOP`) — the exception is not
caught by the `except FileNotFoundError` clause at line 36 and propagates
out of `process`, aborting the run instead of returning `unlink`. -/
theorem symlink_eloop_uncaught :
    process 10 ⟨.lnk, 0, 0, 0⟩ .fileNotFound = .ok .unlink ∧
    process 10 ⟨.lnk, 0, 0, 0⟩ .osError = .error .osError ∧
    process 10 ⟨.lnk, 0, 0, 0⟩ .osError ≠ .ok .unlink :=
  ⟨rfl, rfl, fun h => Except.noConfusion h⟩

/-- Claim C5: for a symlink whose target resolves (the following stat at
line 35 returns the target's stats, which are never those of a symlink),
the classification equals the classification computed from the resolved
target's own type and timestamps, except that `defer_rmdir_check` is
replaced by `defer_unsymlink_check`; `skip` and `unlink` pass through
unchanged. -/
theorem symlink_target_classification (th : Int) (s t : Stats)
    (hs : s.ftype = .lnk) (ht : t.ftype ≠ .lnk) :
    ∀ r : ResolveResult,
      process th s (.found t) =
        Except.map
          (fun a =>
            if a = Action.defer_rmdir_check then Action.defer_unsymlink_check
            else a)
          (process th t r) := by
  intro r
  obtain ⟨u, m, c, a⟩ := t
  simp only at ht
  cases u <;> simp_all [process, processInner, supported, Except.map]

/-- Witness for C5 at a concrete input: a symlink to an old directory is
classified `defer_unsymlink_check` = the target's `defer_rmdir_check`
remapped. -/
theorem symlink_target_classification_witness :
    (Stats.ftype ⟨.lnk, 0, 0, 0⟩ = .lnk) ∧
    (Stats.ftype ⟨.dir, 0, 0, 0⟩ ≠ .lnk) ∧
    process 10 ⟨.lnk, 0, 0, 0⟩ (.found ⟨.dir, 0, 0, 0⟩) =
      Except.map
        (fun a =>
          if a = Action.defer_rmdir_check then Action.defer_unsymlink_check
          else a)
        (process 10 ⟨.dir, 0, 0, 0⟩ .fileNotFound) :=
  ⟨rfl, by decide,
   symlink_target_classification 10 ⟨.lnk, 0, 0, 0⟩ ⟨.dir, 0, 0, 0⟩ rfl
     (by decide) .fileNotFound⟩

/-- Claim C10: `cache_timestamps` is idempotent.  If a first call succeeds
and returns the cache `m'`, then a second call on the same path returns
`m'` unchanged for EVERY stat oracle `st2` — in particular the second call
performs no stat (its result is independent of what a stat would now
return) and no write (the cache is returned as-is), even if the path's
on-disk timestamps changed between the calls. -/
theorem cache_idempotent
    (st1 st2 : Path → Except PyExn (Int × Int))
    (m m' : List (Path × (Int × Int))) (p : Path)
    (h : cache_timestamps st1 m p = .ok m') :
    cache_timestamps st2 m' p = .ok m' := by
  unfold cache_timestamps at h ⊢
  cases hl : lookupTs m p with
  | some v =>
    rw [hl] at h
    cases h
    rw [hl]
  | none =>
    rw [hl] at h
    cases hs : st1 p with
    | error e => rw [hs] at h; cases h
    | ok v =>
      rw [hs] at h
      cases h
      have : lookupTs (m ++ [(p, v)]) p = some v := by
        induction m with
        | nil => simp [lookupTs]
        | cons hd tl ih =>
          obtain ⟨q, w⟩ := hd
          by_cases hq : q = p
          · subst hq
            simp [lookupTs] at hl
          · simp only [lookupTs, List.cons_append, if_neg hq]
            exact ih (by simpa [lookupTs, hq] using hl)
      rw [this]

/-- Witness for C10 at a concrete input: after caching path `["a"]` with a
stat oracle returning `(5, 6)`, a second call under an oracle returning
`(7, 8)` leaves the cache unchanged. -/
theorem cache_idempotent_witness :
    cache_timestamps (fun _ => .ok (5, 6)) [] ["a"] = .ok [(["a"], (5, 6))] ∧
    cache_timestamps (fun _ => .ok (7, 8)) [(["a"], (5, 6))] ["a"] =
      .ok [(["a"], (5, 6))] :=
  ⟨rfl,
   cache_idempotent (fun _ => .ok (5, 6)) (fun _ => .ok (7, 8)) [] _ ["a"] rfl⟩

lemma lookupTs_append_left {m : List (Path × (Int × Int))} {p : Path}
    {v : Int × Int} (l : List (Path × (Int × Int)))
    (h : lookupTs m p = some v) : lookupTs (m ++ l) p = some v := by
  induction m with
  | nil => simp [lookupTs] at h
  | cons hd tl ih =>
    obtain ⟨q, w⟩ := hd
    by_cases hq : q = p
    · simpa [lookupTs, hq] using h
    · simp only [lookupTs, if_neg hq, List.cons_append] at h ⊢
      exact ih h

lemma lookupTs_isSome_append {m : List (Path × (Int × Int))} {p : Path}
    (l : List (Path × (Int × Int)))
    (h : (lookupTs m p).isSome = true) : (lookupTs (m ++ l) p).isSome = true := by
  obtain ⟨v, hv⟩ := Option.isSome_iff_exists.mp h
  rw [lookupTs_append_left l hv]
  rfl

lemma lookupTs_append_self {m : List (Path × (Int × Int))} {p : Path}
    (h : lookupTs m p = none) (v : Int × Int) :
    lookupTs (m ++ [(p, v)]) p = some v := by
  induction m with
  | nil => simp [lookupTs]
  | cons hd tl ih =>
    obtain ⟨q, w⟩ := hd
    by_cases hq : q = p
    · simp [lookupTs, hq] at h
    · simp only [lookupTs, if_neg hq, List.cons_append] at h ⊢
      exact ih h

lemma lookupTs_none_not_mem {m : List (Path × (Int × Int))} {p : Path}
    (h : lookupTs m p = none) : p ∉ m.map Prod.fst := by
  induction m with
  | nil => simp
  | cons hd tl ih =>
    obtain ⟨q, w⟩ := hd
    by_cases hq : q = p
    · simp [lookupTs, hq] at h
    · simp only [lookupTs, if_neg hq] at h
      simp only [List.map_cons, List.mem_cons]
      rintro (rfl | hmem)
      · exact hq rfl
      · exact ih h hmem

lemma cache_ok_cases {st : Path → Except PyExn (Int × Int)}
    {m m' : List (Path × (Int × Int))} {p : Path}
    (h : cache_timestamps st m p = .ok m') :
    (m' = m ∧ (lookupTs m p).isSome = true) ∨
    (∃ v, m' = m ++ [(p, v)] ∧ lookupTs m p = none ∧ st p = .ok v) := by
  unfold cache_timestamps at h
  cases hl : lookupTs m p with
  | some v =>
    rw [hl] at h
    cases h
    exact Or.inl ⟨rfl, rfl⟩
  | none =>
    rw [hl] at h
    cases hs : st p with
    | error e => rw [hs] at h; cases h
    | ok v =>
      rw [hs] at h
      cases h
      exact Or.inr ⟨v, rfl, rfl, rfl⟩

lemma cache_ok_ext {st : Path → Except PyExn (Int × Int)}
    {m m' : List (Path × (Int × Int))} {p : Path}
    (h : cache_timestamps st m p = .ok m') : ∃ ext, m' = m ++ ext := by
  rcases cache_ok_cases h with ⟨rfl, _⟩ | ⟨v, rfl, _, _⟩
  · exact ⟨[], by simp⟩
  · exact ⟨[(p, v)], rfl⟩

lemma cache_ok_self {st : Path → Except PyExn (Int × Int)}
    {m m' : List (Path × (Int × Int))} {p : Path}
    (h : cache_timestamps st m p = .ok m') :
    (lookupTs m' p).isSome = true := by
  rcases cache_ok_cases h with ⟨rfl, hs⟩ | ⟨v, rfl, hn, _⟩
  · exact hs
  · rw [lookupTs_append_self hn v]
    rfl

lemma cache_ok_keep {st : Path → Except PyExn (Int × Int)}
    {m m' : List (Path × (Int × Int))} {p q : Path}
    (h : cache_timestamps st m p = .ok m')
    (hq : (lookupTs m q).isSome = true) :
    (lookupTs m' q).isSome = true := by
  obtain ⟨ext, rfl⟩ := cache_ok_ext h
  exact lookupTs_isSome_append ext hq

lemma cache_ok_nodup {st : Path → Except PyExn (Int × Int)}
    {m m' : List (Path × (Int × Int))} {p : Path}
    (h : cache_timestamps st m p = .ok m')
    (hnd : (m.map Prod.fst).Nodup) : (m'.map Prod.fst).Nodup := by
  rcases cache_ok_cases h with ⟨rfl, _⟩ | ⟨v, rfl, hn, _⟩
  · exact hnd
  · have hpm := lookupTs_none_not_mem hn
    rw [List.map_append]
    refine List.Nodup.append hnd ?_ ?_
    · simp
    · intro a ha ha'
      simp only [List.map_cons, List.map_nil, List.mem_singleton] at ha'
      subst ha'
      exact hpm ha

lemma cache_of_isOk {st : Path → Except PyExn (Int × Int)}
    (m : List (Path × (Int × Int))) {p : Path}
    (hok : isOkE (st p) = true) :
    ∃ m', cache_timestamps st m p = .ok m' := by
  unfold cache_timestamps
  cases hl : lookupTs m p with
  | some v => exact ⟨m, rfl⟩
  | none =>
    cases hs : st p with
    | error e => rw [hs] at hok; simp [isOkE] at hok
    | ok v => exact ⟨m ++ [(p, v)], rfl⟩

lemma mutPaths_append (t l : List Effect) :
    mutPaths (t ++ l) = mutPaths t ++ mutPaths l := by
  simp [mutPaths]

lemma mutPaths_verbose (v : Bool) (p : Path) :
    mutPaths (if v then [Effect.out p] else []) = [] := by
  cases v <;> rfl

lemma scanItem_snap (th : Int) (env : Env) (v : Bool) (ex : String → Bool)
    (dp : Path) (nm : String) (st : RState) (h : SnapInv st) :
    SnapInv (scanItem th env v ex dp nm st) ∧
    ∃ ext, (scanItem th env v ex dp nm st).dirTimes = st.dirTimes ++ ext := by
  obtain ⟨hmut, hnd⟩ := h
  unfold scanItem
  split
  · exact ⟨⟨hmut, hnd⟩, [], by simp⟩
  split
  · exact ⟨⟨hmut, hnd⟩, [], by simp⟩
  split
  · exact ⟨⟨hmut, hnd⟩, [], by simp⟩
  split
  · exact ⟨⟨hmut, hnd⟩, [], by simp⟩
  split
  · -- unlink classification
    split
    · exact ⟨⟨hmut, hnd⟩, [], by simp⟩
    · rename_i dt hdt
      split
      · -- unlink succeeded
        refine ⟨⟨?_, cache_ok_nodup hdt hnd⟩, ?_⟩
        · intro p hp
          simp only [mutPaths_append, mutPaths_verbose, List.append_nil,
            List.mem_append] at hp
          rcases hp with hp | hp
          · exact cache_ok_keep hdt (hmut p hp)
          · have : p = dp ++ [nm] := by
              simpa [mutPaths, mutOf] using hp
            subst this
            simpa using cache_ok_self hdt
        · obtain ⟨ext, hext⟩ := cache_ok_ext hdt
          exact ⟨ext, hext⟩
      · -- unlink failed, cache kept
        refine ⟨⟨?_, cache_ok_nodup hdt hnd⟩, ?_⟩
        · intro p hp
          exact cache_ok_keep hdt (hmut p hp)
        · obtain ⟨ext, hext⟩ := cache_ok_ext hdt
          exact ⟨ext, hext⟩
  split
  · exact ⟨⟨hmut, hnd⟩, [], by simp⟩
  · exact ⟨⟨hmut, hnd⟩, [], by simp⟩

lemma drainItem_snap (env : Env) (v : Bool) (st : RState) (pa : Path × Action)
    (h : SnapInv st) :
    SnapInv (drainItem env v st pa) ∧
    ∃ ext, (drainItem env v st pa).dirTimes = st.dirTimes ++ ext := by
  obtain ⟨hmut, hnd⟩ := h
  have hvis : mutPaths [Effect.drainVisit pa.1] = [] := rfl
  unfold drainItem
  split
  · exact ⟨⟨hmut, hnd⟩, [], by simp⟩
  split
  · -- cache stat failed: uncaught exception
    refine ⟨⟨?_, hnd⟩, [], by simp⟩
    intro p hp
    simp only [mutPaths_append, hvis, List.append_nil] at hp
    exact hmut p hp
  · rename_i dt hdt
    split
    · -- defer_rmdir_check
      split
      · -- rmdir succeeded
        refine ⟨⟨?_, cache_ok_nodup hdt hnd⟩, ?_⟩
        · intro p hp
          simp only [mutPaths_append, mutPaths_verbose, hvis,
            List.append_nil, List.mem_append] at hp
          rcases hp with hp | hp
          · exact cache_ok_keep hdt (hmut p hp)
          · have : p = pa.1 := by
              simpa [mutPaths, mutOf] using hp
            subst this
            exact cache_ok_self hdt
        · obtain ⟨ext, hext⟩ := cache_ok_ext hdt
          exact ⟨ext, hext⟩
      · refine ⟨⟨?_, cache_ok_nodup hdt hnd⟩, ?_⟩
        · intro p hp
          simp only [mutPaths_append, hvis, List.append_nil] at hp
          exact cache_ok_keep hdt (hmut p hp)
        · obtain ⟨ext, hext⟩ := cache_ok_ext hdt
          exact ⟨ext, hext⟩
    · -- defer_unsymlink_check
      split
      · -- path still exists: nothing unlinked
        refine ⟨⟨?_, cache_ok_nodup hdt hnd⟩, ?_⟩
        · intro p hp
          simp only [mutPaths_append, mutPaths_verbose, hvis,
            List.append_nil] at hp
          exact cache_ok_keep hdt (hmut p hp)
        · obtain ⟨ext, hext⟩ := cache_ok_ext hdt
          exact ⟨ext, hext⟩
      split
      · -- dangling symlink unlinked
        refine ⟨⟨?_, cache_ok_nodup hdt hnd⟩, ?_⟩
        · intro p hp
          simp only [mutPaths_append, mutPaths_verbose, hvis,
            List.append_nil, List.mem_append] at hp
          rcases hp with hp | hp
          · exact cache_ok_keep hdt (hmut p hp)
          · have : p = pa.1 := by
              simpa [mutPaths, mutOf] using hp
            subst this
            exact cache_ok_self hdt
        · obtain ⟨ext, hext⟩ := cache_ok_ext hdt
          exact ⟨ext, hext⟩
      · refine ⟨⟨?_, cache_ok_nodup hdt hnd⟩, ?_⟩
        · intro p hp
          simp only [mutPaths_append, hvis, List.append_nil] at hp
          exact cache_ok_keep hdt (hmut p hp)
        · obtain ⟨ext, hext⟩ := cache_ok_ext hdt
          exact ⟨ext, hext⟩
    · -- defensive `continue` branch
      refine ⟨⟨?_, cache_ok_nodup hdt hnd⟩, ?_⟩
      · intro p hp
        simp only [mutPaths_append, hvis, List.append_nil] at hp
        exact cache_ok_keep hdt (hmut p hp)
      · obtain ⟨ext, hext⟩ := cache_ok_ext hdt
        exact ⟨ext, hext⟩

lemma drainItem_parent (env : Env) (v : Bool) (st : RState)
    (pa : Path × Action) (hexn : st.exn = none) :
    (lookupTs (drainItem env v st pa).dirTimes pa.1.dropLast).isSome = true ∨
    (drainItem env v st pa).exn.isSome = true := by
  unfold drainItem
  rw [hexn]
  simp only [Option.isSome_none, Bool.false_eq_true, if_false]
  split
  · exact Or.inr rfl
  · rename_i dt hdt
    split
    · split
      · exact Or.inl (cache_ok_self hdt)
      · exact Or.inl (cache_ok_self hdt)
    · split
      · exact Or.inl (cache_ok_self hdt)
      split
      · exact Or.inl (cache_ok_self hdt)
      · exact Or.inl (cache_ok_self hdt)
    · exact Or.inl (cache_ok_self hdt)

lemma restoreItem_snap (env : Env) (st : RState) (pt : Path × (Int × Int))
    (h : SnapInv st) :
    SnapInv (restoreItem env st pt) ∧
    (restoreItem env st pt).dirTimes = st.dirTimes := by
  obtain ⟨hmut, hnd⟩ := h
  unfold restoreItem
  split
  · exact ⟨⟨hmut, hnd⟩, rfl⟩
  split
  · refine ⟨⟨?_, hnd⟩, rfl⟩
    intro p hp
    simp only [mutPaths_append] at hp
    have : mutPaths [Effect.utime pt.1 pt.2] = [] := rfl
    rw [this, List.append_nil] at hp
    exact hmut p hp
  · exact ⟨⟨hmut, hnd⟩, rfl⟩

lemma foldl_snap {α : Type} (f : RState → α → RState)
    (hf : ∀ st a, SnapInv st → SnapInv (f st a)) :
    ∀ (l : List α) (st : RState), SnapInv st → SnapInv (l.foldl f st) := by
  intro l
  induction l with
  | nil => intro st h; exact h
  | cons a t ih => intro st h; exact ih (f st a) (hf st a h)

lemma initState_snap : SnapInv initState := by
  constructor
  · intro p hp
    simp [initState, mutPaths] at hp
  · simp [initState]

/-- Claim C6: within one root, the timestamp snapshot `dir_times` always
holds, for the parent of every successfully mutated path (child unlinks
during the scan, and rmdirs/unlinks during the drain), exactly one
`(atime_ns, mtime_ns)` entry — recorded by `cache_timestamps` before the
mutation is attempted; entries are only ever appended (never overwritten:
first capture wins), keys stay duplicate-free, and the parent of every
deferred item acted on is cached by the drain step itself (or the run
aborts right there).  Stated as: `SnapInv` is preserved by each scan-step,
drain-step and restore-step from any state and holds for the final state
of `runRoot`, each step only appends to `dir_times`, and each non-aborted
drain step leaves the deferred path's parent cached. -/
theorem snapshot_invariant (th : Int) (env : Env) (v : Bool)
    (ex : String → Bool) :
    (∀ dp nm st, SnapInv st →
      SnapInv (scanItem th env v ex dp nm st) ∧
      ∃ ext, (scanItem th env v ex dp nm st).dirTimes = st.dirTimes ++ ext) ∧
    (∀ st pa, SnapInv st →
      SnapInv (drainItem env v st pa) ∧
      ∃ ext, (drainItem env v st pa).dirTimes = st.dirTimes ++ ext) ∧
    (∀ st pt, SnapInv st →
      SnapInv (restoreItem env st pt) ∧
      (restoreItem env st pt).dirTimes = st.dirTimes) ∧
    (∀ st pa, st.exn = none →
      (lookupTs (drainItem env v st pa).dirTimes pa.1.dropLast).isSome = true ∨
      (drainItem env v st pa).exn.isSome = true) ∧
    (∀ walk root, SnapInv (runRoot th env v ex walk root)) := by
  refine ⟨fun dp nm st h => scanItem_snap th env v ex dp nm st h,
    fun st pa h => drainItem_snap env v st pa h,
    fun st pt h => restoreItem_snap env st pt h,
    fun st pa h => drainItem_parent env v st pa h,
    fun walk root => ?_⟩
  have hscan : ∀ (w : List (Path × List String × List String)) (st : RState),
      SnapInv st → SnapInv (scanPhase th env v ex w st) :=
    foldl_snap _ (fun st e hst =>
      foldl_snap _ (fun st' n hst' => (scanItem_snap th env v ex e.1 n st' hst').1)
        (e.2.2 ++ e.2.1) st hst)
  have hdrain : ∀ (ds : List (Path × Action)) (st : RState),
      SnapInv st → SnapInv (drainPhase env v ds st) :=
    fun ds st hst =>
      foldl_snap _ (fun st' pa hst' => (drainItem_snap env v st' pa hst').1)
        ds st hst
  have hrest : ∀ (st : RState), SnapInv st → SnapInv (restorePhase env st) :=
    fun st hst =>
      foldl_snap _ (fun st' pt hst' => (restoreItem_snap env st' pt hst').1)
        st.dirTimes st hst
  exact hrest _ (hdrain _ _ (hscan _ _ initState_snap))

/-- Witness for C6: the invariant holds for the empty initial state and is
propagated by a concrete scan step that unlinks a file under `["t"]`. -/
theorem snapshot_invariant_witness :
    SnapInv initState ∧
    SnapInv (scanItem 10 envA false exF ["t"] "f" initState) :=
  ⟨initState_snap,
   ((snapshot_invariant 10 envA false exF).1 ["t"] "f" initState
     initState_snap).1⟩

lemma visits_append (t l : List Effect) :
    drainVisits (t ++ l) = drainVisits t ++ drainVisits l := by
  simp [drainVisits]

lemma visits_verbose (v : Bool) (p : Path) :
    drainVisits (if v then [Effect.out p] else []) = [] := by
  cases v <;> rfl

lemma scanItem_visits (th : Int) (env : Env) (v : Bool) (ex : String → Bool)
    (dp : Path) (nm : String) (st : RState) :
    drainVisits (scanItem th env v ex dp nm st).trace = drainVisits st.trace := by
  unfold scanItem
  split
  · rfl
  split
  · rfl
  split
  · rfl
  split
  · rfl
  split
  · split
    · rfl
    split
    · cases v <;> simp [drainVisits, visitOf]
    · rfl
  split
  · rfl
  · rfl

lemma foldl_visits {α : Type} (f : RState → α → RState)
    (hf : ∀ st a, drainVisits (f st a).trace = drainVisits st.trace) :
    ∀ (l : List α) (st : RState),
      drainVisits (l.foldl f st).trace = drainVisits st.trace := by
  intro l
  induction l with
  | nil => intro st; rfl
  | cons a t ih => intro st; rw [List.foldl_cons, ih (f st a), hf st a]

lemma scanPhase_visits (th : Int) (env : Env) (v : Bool) (ex : String → Bool)
    (w : List (Path × List String × List String)) (st : RState) :
    drainVisits (scanPhase th env v ex w st).trace = drainVisits st.trace := by
  unfold scanPhase
  refine foldl_visits _ ?_ w st
  intro st' e
  unfold scanDir
  exact foldl_visits _ (fun st'' n => scanItem_visits th env v ex e.1 n st'')
    (e.2.2 ++ e.2.1) st'

lemma drainItem_step (env : Env) (v : Bool) (st : RState) (pa : Path × Action)
    (hexn : st.exn = none)
    (hok : isOkE (env.statNs pa.1.dropLast) = true) :
    (drainItem env v st pa).exn = none ∧
    drainVisits (drainItem env v st pa).trace =
      drainVisits st.trace ++ [pa.1] := by
  obtain ⟨dt, hdt⟩ := cache_of_isOk st.dirTimes hok
  unfold drainItem
  simp only [hexn, Option.isSome_none, Bool.false_eq_true, if_false]
  split
  · rename_i e heq
    rw [hdt] at heq
    exact Except.noConfusion heq
  · rename_i dt' heq
    split
    · split
      · exact ⟨rfl, by cases v <;> simp [drainVisits, visitOf]⟩
      · exact ⟨rfl, by simp [drainVisits, visitOf]⟩
    · split
      · exact ⟨rfl, by cases v <;> simp [drainVisits, visitOf]⟩
      split
      · exact ⟨rfl, by cases v <;> simp [drainVisits, visitOf]⟩
      · exact ⟨rfl, by simp [drainVisits, visitOf]⟩
    · exact ⟨rfl, by simp [drainVisits, visitOf]⟩

lemma drainPhase_trace (env : Env) (v : Bool) :
    ∀ (ds : List (Path × Action)) (st : RState), st.exn = none →
    (∀ pa ∈ ds, isOkE (env.statNs pa.1.dropLast) = true) →
    (drainPhase env v ds st).exn = none ∧
    drainVisits (drainPhase env v ds st).trace =
      drainVisits st.trace ++ ds.map Prod.fst := by
  intro ds
  induction ds with
  | nil => intro st h _; exact ⟨h, by simp [drainPhase]⟩
  | cons pa t ih =>
    intro st h hall
    have h1 := drainItem_step env v st pa h (hall pa (by simp))
    have h2 := ih (drainItem env v st pa) h1.1
      (fun x hx => hall x (by simp [hx]))
    refine ⟨h2.1, ?_⟩
    have hstep : drainPhase env v (pa :: t) st =
        drainPhase env v t (drainItem env v st pa) := rfl
    rw [hstep, h2.2, h1.2]
    simp

lemma restoreItem_trace (env : Env) (st : RState) (pt : Path × (Int × Int)) :
    (restoreItem env st pt).exn = st.exn ∧
    drainVisits (restoreItem env st pt).trace = drainVisits st.trace := by
  unfold restoreItem
  split
  · exact ⟨rfl, rfl⟩
  split
  · exact ⟨rfl, by simp [drainVisits, visitOf]⟩
  · exact ⟨rfl, rfl⟩

lemma restoreFold_trace (env : Env) :
    ∀ (l : List (Path × (Int × Int))) (st : RState),
    (l.foldl (restoreItem env) st).exn = st.exn ∧
    drainVisits (l.foldl (restoreItem env) st).trace = drainVisits st.trace := by
  intro l
  induction l with
  | nil => intro st; exact ⟨rfl, rfl⟩
  | cons pt t ih =>
    intro st
    have h1 := restoreItem_trace env st pt
    have h2 := ih (restoreItem env st pt)
    exact ⟨h2.1.trans h1.1, h2.2.trans h1.2⟩

lemma before_reverse {l : List Path} {a b : Path} (h : Before l a b) :
    Before l.reverse b a := by
  obtain ⟨l1, l2, l3, rfl⟩ := h
  refine ⟨l3.reverse, l2.reverse, l1.reverse, ?_⟩
  simp [List.reverse_append]

/-- Claim C1: for a root whose scan completes without an uncaught
exception and whose drain-time cache stats succeed, the deferred items are
visited in exactly the reverse of the order they were appended during the
top-down scan; consequently any item appended before another (in
particular an ancestor directory, discovered before its descendants by the
top-down walk) is acted on after it — e.g. append order
`[A, A/b, A/b/c]` yields drain order `[A/b/c, A/b, A]`. -/
theorem drain_reverse_order (th : Int) (env : Env) (v : Bool)
    (ex : String → Bool)
    (walk : Path → List (Path × List String × List String)) (root : Path)
    (hexn : (scanPhase th env v ex (walk root) initState).exn = none)
    (hok : ((scanPhase th env v ex (walk root) initState).deferred.all
      (fun pa => isOkE (env.statNs pa.1.dropLast))) = true) :
    drainVisits (runRoot th env v ex walk root).trace =
      ((scanPhase th env v ex (walk root) initState).deferred.map
        Prod.fst).reverse ∧
    ∀ a b,
      Before ((scanPhase th env v ex (walk root) initState).deferred.map
        Prod.fst) a b →
      Before (drainVisits (runRoot th env v ex walk root).trace) b a := by
  have hall : ∀ pa ∈ (scanPhase th env v ex (walk root) initState).deferred.reverse,
      isOkE (env.statNs pa.1.dropLast) = true := by
    intro pa hpa
    rw [List.mem_reverse] at hpa
    exact List.all_eq_true.mp hok pa hpa
  have hd := drainPhase_trace env v
    (scanPhase th env v ex (walk root) initState).deferred.reverse
    (scanPhase th env v ex (walk root) initState) hexn hall
  have hrun : runRoot th env v ex walk root =
      restorePhase env (drainPhase env v
        (scanPhase th env v ex (walk root) initState).deferred.reverse
        (scanPhase th env v ex (walk root) initState)) := rfl
  have hrest := restoreFold_trace env
    (drainPhase env v
      (scanPhase th env v ex (walk root) initState).deferred.reverse
      (scanPhase th env v ex (walk root) initState)).dirTimes
    (drainPhase env v
      (scanPhase th env v ex (walk root) initState).deferred.reverse
      (scanPhase th env v ex (walk root) initState))
  have hscan : drainVisits (scanPhase th env v ex (walk root) initState).trace
      = [] := by
    rw [scanPhase_visits]
    rfl
  have hmain : drainVisits (runRoot th env v ex walk root).trace =
      ((scanPhase th env v ex (walk root) initState).deferred.map
        Prod.fst).reverse := by
    rw [hrun]
    unfold restorePhase
    rw [hrest.2, hd.2, hscan]
    simp
  refine ⟨hmain, fun a b hb => ?_⟩
  rw [hmain]
  exact before_reverse hb

/-- Witness for C1: with root `T` containing `A ⊃ b ⊃ c` (all old
directories, so all deferred in discovery order `A, A/b, A/b/c`), the drain
visits them in order `A/b/c, A/b, A`. -/
theorem drain_reverse_order_witness :
    (scanPhase 10 envA false exF (walkA ["T"]) initState).exn = none ∧
    ((scanPhase 10 envA false exF (walkA ["T"]) initState).deferred.all
      (fun pa => isOkE (envA.statNs pa.1.dropLast))) = true ∧
    drainVisits (runRoot 10 envA false exF walkA ["T"]).trace =
      [["T", "A", "b", "c"], ["T", "A", "b"], ["T", "A"]] := by
  refine ⟨rfl, rfl, ?_⟩
  have h := drain_reverse_order 10 envA false exF walkA ["T"] rfl rfl
  exact h.1.trans rfl

/-- Claim C7 evaluated on the code: a stat failure inside
`cache_timestamps` is indeed swallowed at the scan call site (line 133 sits
inside `try/except OSError`: the state is returned unchanged — for this
entry the unlink is also forfeited — and the walk continues), but at the
deferred-drain call site (line 150, OUTSIDE the `try`) the same failure
becomes an uncaught `OSError` that aborts the run. -/
theorem cache_stat_failure_sites :
    scanItem 10 env7 true exF ["t"] "f" initState = initState ∧
    (drainItem env7 true initState
      (["t", "d"], Action.defer_rmdir_check)).exn = some PyExn.osError :=
  ⟨rfl, rfl⟩

/-- Claim C8 evaluated on the code: with the verbose flag set, a deferred
symlink whose target still resolves (`os.path.exists` is true) is left
untouched — no unlink, rmdir or any other mutation happens — yet the
`try/else` structure at lines 151-165 still prints its path to stdout,
because the `try` body completed without raising. -/
theorem verbose_line_without_deletion :
    (drainItem env8 true initState
      (["t", "s"], Action.defer_unsymlink_check)).trace =
      [Effect.drainVisit ["t", "s"], Effect.out ["t", "s"]] ∧
    mutPaths (drainItem env8 true initState
      (["t", "s"], Action.defer_unsymlink_check)).trace = [] ∧
    outLines (drainItem env8 true initState
      (["t", "s"], Action.defer_unsymlink_check)).trace = [["t", "s"]] :=
  ⟨rfl, rfl, rfl⟩

/-- Counterexample to claim C9 as stated: even with an empty root list the
program writes two lines to standard output — the unconditional
`print()` / `print("Removing old temporary files:")` header at
lines 109-110 runs before the per-root loop is entered. -/
theorem empty_roots_header_lines :
    (programRun 10 env8 false exF (fun _ => []) []).1 =
      ["", "Removing old temporary files:"] ∧
    (programRun 10 env8 false exF (fun _ => []) []).1 ≠ ([] : List String) :=
  ⟨rfl, fun h => List.noConfusion h⟩

/-- Claim C9 as amended: a run with an empty configured root list performs
no filesystem mutation (no unlink, rmdir or utime event) and emits no
per-deletion output lines — its effect trace is empty and no exception is
raised; only the constant two-line header is still printed. -/
theorem empty_roots_no_effects (th : Int) (env : Env) (v : Bool)
    (ex : String → Bool)
    (walk : Path → List (Path × List String × List String)) :
    runAll th env v ex walk [] = ([], none) :=
  rfl

end CleanTmps
